import Mathlib

/-!
Verification of the kabyliner corpus pipeline (src/kabyliner.py).

The pipeline has four stages: `download_tmx` (Fetcher), `extract_parallel_corpus`
(Extractor), `clean_corpus` (Cleaner), `split_tsv_to_txt` (Splitter).  Python
strings are embedded as `List Char` (`PyStr`) and the Python string primitives
used by the code (`str.strip`, `str.split('\t')`, `sep.join`) are modelled
character by character, so every claim can be evaluated on concrete inputs.
Files are embedded as the list of their lines (without line terminators); the
csv reader/writer used by the Cleaner is modelled as a per-line state machine
over the dialect actually in use (delimiter `'\t'`, quote char `'"'`,
doublequote, minimal quoting).
-/

/-- Python strings, embedded as lists of characters. -/
abbrev PyStr := List Char

/-- Characters that Python's `str.strip()` removes (the ASCII whitespace set). -/
def isPySpace (c : Char) : Bool :=
  c = ' ' || c = '\t' || c = '\n' || c = '\r' || c = '\x0b' || c = '\x0c'

/-- Python `s.strip()`: drop leading and trailing whitespace. -/
def pyStrip (s : PyStr) : PyStr :=
  ((s.dropWhile isPySpace).reverse.dropWhile isPySpace).reverse

/-- Python `s.split('\t')`: split on every tab; `''.split('\t') = ['']`. -/
def pySplitTab : PyStr → List PyStr
  | [] => [[]]
  | c :: rest =>
    let r := pySplitTab rest
    if c = '\t' then [] :: r
    else
      match r with
      | f :: fs => (c :: f) :: fs
      | [] => [[c]]

/-- Python `sep.join(fields)` for a one-character separator. -/
def pyJoin (sep : Char) : List PyStr → PyStr
  | [] => []
  | [f] => f
  | f :: fs => f ++ sep :: pyJoin sep fs

/-- Abbreviation for string literals as `PyStr`. -/
def pys (s : String) : PyStr := s.data

-- ======================= File Splitting (split_tsv_to_txt) ===================

/-- Errors the Splitter can raise: `StopIteration` from `next(infile)` on an
empty file, and `ValueError` from unpacking a split that is not two fields. -/
inductive SplitError
  | emptyFile
  | badRow
deriving DecidableEq

/-- One loop iteration of `split_tsv_to_txt`:
`en, kab = line.strip().split('\t')`. -/
def splitLine (line : PyStr) : Except SplitError (PyStr × PyStr) :=
  match pySplitTab (pyStrip line) with
  | [en, kab] => .ok (en, kab)
  | _ => .error .badRow

/-- The loop of `split_tsv_to_txt` over the data lines, collecting the lines
written to the two output files. -/
def splitLines : List PyStr → Except SplitError (List PyStr × List PyStr)
  | [] => .ok ([], [])
  | l :: ls =>
    match splitLine l with
    | .error e => .error e
    | .ok (en, kab) =>
      match splitLines ls with
      | .error e => .error e
      | .ok (ens, kabs) => .ok (en :: ens, kab :: kabs)

/-- `split_tsv_to_txt`: `next(infile)` skips the header (raising on an empty
file), then each line is stripped, split on tab and the two fields are written
to the two per-language output files. -/
def split_tsv_to_txt : List PyStr → Except SplitError (List PyStr × List PyStr)
  | [] => .error .emptyFile
  | _ :: data => splitLines data

example : split_tsv_to_txt [pys "en\tkab", pys "Hello\tAzul"] =
    .ok ([pys "Hello"], [pys "Azul"]) := by rfl

example : split_tsv_to_txt [pys "en\tkab", pys " a\tb "] =
    .ok ([pys "a"], [pys "b"]) := by rfl

example : split_tsv_to_txt [pys "en\tkab", pys "a\tb\tc"] = .error .badRow := by
  rfl

-- ======================= Corpus Cleaning (clean_corpus) ======================

/-- A parsed csv row: the list of its fields. -/
abbrev Row := List PyStr

/-- The `ValueError`s `clean_corpus` raises before processing any data row. -/
inductive CleanError
  | emptyInput
  | invalidFormat
deriving DecidableEq

/-- The header `clean_corpus` demands: `['en', 'kab']`. -/
def validHeader : Row := [pys "en", pys "kab"]

/-- The row filter of `clean_corpus`:
`len(row) == 2 and row[0].strip() and row[1].strip()`. -/
def keepRow (row : Row) : Bool :=
  row.length == 2 && !(pyStrip (row.getD 0 [])).isEmpty
    && !(pyStrip (row.getD 1 [])).isEmpty

/-- The row loop of `clean_corpus`: returns `(kept, removed, rows written)`. -/
def cleanLoop : List Row → Nat × Nat × List Row
  | [] => (0, 0, [])
  | row :: rest =>
    let r := cleanLoop rest
    if keepRow row then (r.1 + 1, r.2.1, row :: r.2.2)
    else (r.1, r.2.1 + 1, r.2.2)

/-- `clean_corpus` on the parsed rows of the input file.  The first component
is the content of the output file after the call: the file is opened for
writing (hence created and truncated) before the header is read, so it is
`some written` on every outcome, `some []` when a `ValueError` is raised
before anything is written.  The second component is the returned
`(kept, removed)` pair or the raised error. -/
def clean_corpus (rows : List Row) :
    Option (List Row) × Except CleanError (Nat × Nat) :=
  match rows with
  | [] => (some [], .error .emptyInput)
  | header :: rest =>
    if header = validHeader then
      let r := cleanLoop rest
      (some (header :: r.2.2), .ok (r.1, r.2.1))
    else
      (some [], .error .invalidFormat)

/-- The content of the cleaned-output path after a run of `clean_corpus`,
given the content before the run (`none` = the path did not exist).  Opening
the output with mode `'w'` truncates it unconditionally, so the previous
content never survives. -/
def clean_corpus_output (_prev : Option (List Row)) (rows : List Row) :
    Option (List Row) :=
  (clean_corpus rows).1

example : clean_corpus [] = (some [], .error .emptyInput) := by rfl

example : clean_corpus [[pys "foo", pys "bar"]] =
    (some [], .error .invalidFormat) := by rfl

example : clean_corpus [validHeader, [pys "Hello", pys "Azul"], [pys "Hello", pys " "]] =
    (some [validHeader, [pys "Hello", pys "Azul"]], .ok (1, 1)) := by rfl

-- ================= The csv dialect used by clean_corpus ======================

/-- States of the per-line csv reader automaton (Python `csv.reader` with
delimiter `'\t'`, quote char `'"'`, doublequote, non-strict). -/
inductive CsvState
  | startField
  | inField
  | inQuoted
  | quoteInQuoted
deriving DecidableEq

/-- The csv reader automaton over the characters of one line (fields with
embedded line terminators are outside this model).  `field` is the field
being accumulated and `fields` the completed fields. -/
def csvReadAux : PyStr → CsvState → PyStr → List PyStr → List PyStr
  | [], st, field, fields =>
    match st, fields with
    | .startField, [] => []
    | _, _ => fields ++ [field]
  | c :: rest, .startField, field, fields =>
    if c = '"' then csvReadAux rest .inQuoted field fields
    else if c = '\t' then csvReadAux rest .startField [] (fields ++ [field])
    else csvReadAux rest .inField (field ++ [c]) fields
  | c :: rest, .inField, field, fields =>
    if c = '\t' then csvReadAux rest .startField [] (fields ++ [field])
    else csvReadAux rest .inField (field ++ [c]) fields
  | c :: rest, .inQuoted, field, fields =>
    if c = '"' then csvReadAux rest .quoteInQuoted field fields
    else csvReadAux rest .inQuoted (field ++ [c]) fields
  | c :: rest, .quoteInQuoted, field, fields =>
    if c = '"' then csvReadAux rest .inQuoted (field ++ ['"']) fields
    else if c = '\t' then csvReadAux rest .startField [] (fields ++ [field])
    else csvReadAux rest .inField (field ++ [c]) fields

/-- Parse one line of the input file the way `csv.reader(infile, delimiter='\t')`
does: an empty line yields the empty row. -/
def csvReadRow (line : PyStr) : Row := csvReadAux line .startField [] []

/-- Quote-minimal test of `csv.writer`: a field is quoted only when it
contains the delimiter, the quote char or a line terminator. -/
def csvNeedsQuote (f : PyStr) : Bool :=
  f.any (fun c => c = '\t' || c = '"' || c = '\n' || c = '\r')

/-- Quote a field, doubling every embedded quote char. -/
def csvQuote (f : PyStr) : PyStr :=
  '"' :: (f.flatMap (fun c => if c = '"' then ['"', '"'] else [c])) ++ ['"']

/-- Encode one field as `csv.writer(outfile, delimiter='\t')` does. -/
def csvField (f : PyStr) : PyStr :=
  if csvNeedsQuote f then csvQuote f else f

/-- Encode one row as `csv.writer` does (the `\r\n` terminator it appends is
not part of the line content). -/
def csvWriteRow (row : Row) : PyStr := pyJoin '\t' (row.map csvField)

example : csvReadRow (pys "a\tb") = [pys "a", pys "b"] := by rfl
example : csvReadRow (pys "\"a\"\tb") = [pys "a", pys "b"] := by rfl
example : csvReadRow [] = [] := by rfl
example : csvWriteRow [pys "a", pys "b"] = pys "a\tb" := by rfl
example : csvWriteRow [pys "a\"b", pys "c"] = pys "\"a\"\"b\"\tc" := by rfl



-- ======================= TMX Download (download_tmx) =========================

/-- The remote resource as `download_tmx` observes it: the `Content-Length`
header of the metadata (HEAD) response when the server sends one, the status
code of the GET response, and the GET response body. -/
structure Remote where
  contentLength : Option Int
  status : Nat
  body : PyStr

/-- `int(head_response.headers.get("Content-Length", -1))`. -/
def remoteSize (r : Remote) : Int :=
  r.contentLength.getD (-1)

/-- `download_tmx url local_filename` on a local file state (`none` = the
destination does not exist, `some content` = its content).  Returns the new
local file state together with the number of full transfers performed, or the
failing status code when the GET response is not 200. -/
def download_tmx (r : Remote) (localFile : Option PyStr) :
    Except Nat (Option PyStr × Nat) :=
  let doDownload : Except Nat (Option PyStr × Nat) :=
    if r.status = 200 then .ok (some r.body, 1) else .error r.status
  match localFile with
  | some content =>
    if remoteSize r = (content.length : Int) then .ok (some content, 0)
    else doDownload
  | none => doDownload

example : download_tmx ⟨some 1, 200, pys "x"⟩ (some (pys "y")) =
    .ok (some (pys "y"), 0) := by rfl
example : download_tmx ⟨none, 200, pys "x"⟩ (some (pys "x")) =
    .ok (some (pys "x"), 1) := by rfl
example : download_tmx ⟨some 3, 404, pys "x"⟩ none = .error 404 := by rfl

-- =============== TMX Extraction (extract_parallel_corpus) ====================

/-- A `<tuv>` element of a `<tu>`: its `xml:lang` attribute (when present)
and the flattened text `''.join(seg.itertext())` of its `<seg>` child (when
one exists). -/
structure Tuv where
  lang : Option PyStr
  seg : Option PyStr

/-- A `<tu>` element: its list of `<tuv>` children, in document order. -/
structure Tu where
  tuvs : List Tuv

/-- One iteration of the inner loop of `extract_parallel_corpus`, updating the
`texts` dict (embedded as a function from language tag to collected list):
languages other than `src_lang`/`tgt_lang` are ignored, a missing `<seg>` is
ignored, the segment text is stripped and skipped when empty, otherwise
appended to `texts[lang]`. -/
def addTuv (src tgt : PyStr) (texts : PyStr → List PyStr) (tuv : Tuv) :
    PyStr → List PyStr :=
  match tuv.lang with
  | some lang =>
    if lang = src ∨ lang = tgt then
      match tuv.seg with
      | some raw =>
        let text := pyStrip raw
        if text ≠ [] then
          fun k => if k = lang then texts k ++ [text] else texts k
        else texts
      | none => texts
    else texts
  | none => texts

/-- The `texts` dict after the inner loop of `extract_parallel_corpus` over
one `<tu>`. -/
def tuTexts (src tgt : PyStr) (tu : Tu) : PyStr → List PyStr :=
  tu.tuvs.foldl (addTuv src tgt) (fun _ => [])

/-- The data row `extract_parallel_corpus` emits for one `<tu>`: emitted iff
both languages collected at least one segment, and then the two fields are the
single-space joins of the collected lists. -/
def tuRow (src tgt : PyStr) (tu : Tu) : Option PyStr :=
  let texts := tuTexts src tgt tu
  if texts src ≠ [] ∧ texts tgt ≠ [] then
    some (pyJoin ' ' (texts src) ++ '\t' :: pyJoin ' ' (texts tgt))
  else none

/-- `extract_parallel_corpus`: the lines of the raw tsv file, a header line
`f"{src_lang}\t{tgt_lang}"` followed by one line per emitting `<tu>`. -/
def extract_parallel_corpus (src tgt : PyStr) (tus : List Tu) : List PyStr :=
  (src ++ '\t' :: tgt) :: tus.filterMap (tuRow src tgt)

example : extract_parallel_corpus (pys "en") (pys "kab")
    [⟨[⟨some (pys "en"), some (pys "Hello")⟩, ⟨some (pys "kab"), some (pys "Azul")⟩]⟩] =
    [pys "en\tkab", pys "Hello\tAzul"] := by rfl

-- ======================= Helper lemmas =======================================

theorem pySplitTab_ne_nil (s : PyStr) : pySplitTab s ≠ [] := by
  cases s with
  | nil => simp [pySplitTab]
  | cons c rest =>
    simp only [pySplitTab]
    by_cases hc : c = '\t'
    · simp [hc]
    · simp only [hc, if_false]
      cases pySplitTab rest with
      | nil => simp
      | cons f fs => simp

theorem pyJoin_cons_cons (sep c : Char) (f : PyStr) (fs : List PyStr) :
    pyJoin sep ((c :: f) :: fs) = c :: pyJoin sep (f :: fs) := by
  cases fs <;> rfl

theorem pyJoin_pySplitTab (s : PyStr) : pyJoin '\t' (pySplitTab s) = s := by
  induction s with
  | nil => rfl
  | cons c rest ih =>
    by_cases hc : c = '\t'
    · subst hc
      cases hr : pySplitTab rest with
      | nil => exact absurd hr (pySplitTab_ne_nil rest)
      | cons f fs =>
        have h1 : pySplitTab ('\t' :: rest) = [] :: f :: fs := by
          simp only [pySplitTab, if_pos rfl, hr, if_true]
        rw [h1]
        have h2 : pyJoin '\t' ([] :: f :: fs) = '\t' :: pyJoin '\t' (f :: fs) := rfl
        rw [h2, ← hr, ih]
    · cases hr : pySplitTab rest with
      | nil => exact absurd hr (pySplitTab_ne_nil rest)
      | cons f fs =>
        have h1 : pySplitTab (c :: rest) = (c :: f) :: fs := by
          simp only [pySplitTab, hr, if_neg hc]
        rw [h1, pyJoin_cons_cons, ← hr, ih]

theorem head?_isPrefix {α : Type} {s t : List α} {c : α} (h : s <+: t)
    (hc : s.head? = some c) : t.head? = some c := by
  obtain ⟨u, hu⟩ := h
  cases s with
  | nil => simp at hc
  | cons a s => rw [← hu]; simpa using hc

theorem head?_dropWhile_false {α : Type} (p : α → Bool) (l : List α) (c : α)
    (h : (l.dropWhile p).head? = some c) : p c = false := by
  have hnot := List.head?_dropWhile_not p l
  rw [h] at hnot
  exact hnot

theorem pyStrip_isPrefix (s : PyStr) : pyStrip s <+: s.dropWhile isPySpace := by
  unfold pyStrip
  have hsuf : ((s.dropWhile isPySpace).reverse.dropWhile isPySpace) <:+
      (s.dropWhile isPySpace).reverse := List.dropWhile_suffix isPySpace
  have := List.reverse_prefix.mpr hsuf
  rwa [List.reverse_reverse] at this

theorem pyStrip_head_not_space (s : PyStr) (c : Char)
    (h : (pyStrip s).head? = some c) : isPySpace c = false := by
  have hpre := head?_isPrefix (pyStrip_isPrefix s) h
  exact head?_dropWhile_false isPySpace s c hpre

theorem pyStrip_getLast_not_space (s : PyStr) (c : Char)
    (h : (pyStrip s).getLast? = some c) : isPySpace c = false := by
  unfold pyStrip at h
  rw [List.getLast?_reverse] at h
  exact head?_dropWhile_false isPySpace (s.dropWhile isPySpace).reverse c h

theorem splitLine_ok_iff (line en kab : PyStr) :
    splitLine line = .ok (en, kab) ↔ pySplitTab (pyStrip line) = [en, kab] := by
  unfold splitLine
  cases h : pySplitTab (pyStrip line) with
  | nil => simp
  | cons a l =>
    cases l with
    | nil => simp
    | cons b l2 =>
      cases l2 with
      | nil =>
        constructor
        · intro hok
          simp only [Except.ok.injEq, Prod.mk.injEq] at hok
          simp [hok.1, hok.2]
        · intro heq
          simp only [List.cons.injEq] at heq
          simp [heq.1, heq.2.1]
      | cons d l3 => simp

theorem splitLines_ok (data ens kabs : List PyStr)
    (h : splitLines data = .ok (ens, kabs)) :
    ens.length = data.length ∧ kabs.length = data.length ∧
    ∀ i, i < data.length →
      pySplitTab (pyStrip (data.getD i [])) = [ens.getD i [], kabs.getD i []] := by
  induction data generalizing ens kabs with
  | nil =>
    simp only [splitLines, Except.ok.injEq, Prod.mk.injEq] at h
    obtain ⟨h1, h2⟩ := h
    subst h1; subst h2
    simp
  | cons l ls ih =>
    rw [splitLines] at h
    cases hl : splitLine l with
    | error e => rw [hl] at h; exact absurd h (by simp)
    | ok p =>
      obtain ⟨en, kab⟩ := p
      rw [hl] at h
      cases hs : splitLines ls with
      | error e => rw [hs] at h; exact absurd h (by simp)
      | ok q =>
        obtain ⟨ens0, kabs0⟩ := q
        rw [hs] at h
        simp only [Except.ok.injEq, Prod.mk.injEq] at h
        obtain ⟨h1, h2⟩ := h
        subst h1; subst h2
        obtain ⟨hlen1, hlen2, hpt⟩ := ih ens0 kabs0 hs
        refine ⟨by simp [hlen1], by simp [hlen2], ?_⟩
        intro i hi
        cases i with
        | zero =>
          simpa using (splitLine_ok_iff l en kab).mp hl
        | succ j =>
          have hj : j < ls.length := by simpa using hi
          simpa using hpt j hj

-- ======================= Claim C10 ===========================================

/-- C10: the Splitter strips leading and trailing whitespace from each full
data line before splitting on tab: whenever it accepts a line, the two written
values reassemble to the whitespace-stripped line (so the first written value
never starts with whitespace and the second never ends with it); concretely,
on the data row `" a\tb "` it writes `"a"` and `"b"`, which are not the row's
fields `" a"` and `"b "`. -/
theorem C10_splitter_strips_line :
    (∀ line en kab, splitLine line = .ok (en, kab) →
      en ++ '\t' :: kab = pyStrip line
      ∧ (∀ c, en.head? = some c → isPySpace c = false)
      ∧ (∀ c, kab.getLast? = some c → isPySpace c = false))
    ∧ splitLine (pys " a\tb ") = .ok (pys "a", pys "b")
    ∧ pySplitTab (pys " a\tb ") = [pys " a", pys "b "]
    ∧ pys "a" ≠ pys " a" ∧ pys "b" ≠ pys "b " := by
  refine ⟨?_, by rfl, by rfl, by decide, by decide⟩
  intro line en kab h
  have hsp : pySplitTab (pyStrip line) = [en, kab] :=
    (splitLine_ok_iff line en kab).mp h
  have hjoin : en ++ '\t' :: kab = pyStrip line := by
    have := pyJoin_pySplitTab (pyStrip line)
    rw [hsp] at this
    simpa [pyJoin] using this
  refine ⟨hjoin, ?_, ?_⟩
  · intro c hc
    apply pyStrip_head_not_space line c
    rw [← hjoin]
    cases en with
    | nil => simp at hc
    | cons a rest => simpa using hc
  · intro c hc
    apply pyStrip_getLast_not_space line c
    rw [← hjoin]
    have hkab : kab ≠ [] := by
      intro hk
      rw [hk] at hc
      simp at hc
    rw [List.getLast?_append_of_ne_nil en (by simp),
      show ('\t' :: kab) = ['\t'] ++ kab from rfl,
      List.getLast?_append_of_ne_nil ['\t'] hkab]
    exact hc

/-- Witness for `C10_splitter_strips_line` at the line `" a\tb "`. -/
theorem C10_witness :
    pys "a" ++ '\t' :: pys "b" = pyStrip (pys " a\tb ")
    ∧ (∀ c, (pys "a").head? = some c → isPySpace c = false)
    ∧ (∀ c, (pys "b").getLast? = some c → isPySpace c = false) :=
  C10_splitter_strips_line.1 (pys " a\tb ") (pys "a") (pys "b") (by rfl)

-- ======================= Claim C4 ============================================

/-- C4 counterexample: the cleaned data row `" a\tb"` (kept by the Cleaner,
since both fields are non-empty after trimming) splits on tab into exactly the
two fields `" a"` and `"b"`, yet the Splitter's first output line is `"a"`,
not field 1 of the row: the claim "line i of the first file is field 1 of data
row i" fails. -/
theorem C4_counterexample :
    keepRow [pys " a", pys "b"] = true
    ∧ csvWriteRow [pys " a", pys "b"] = pys " a\tb"
    ∧ pySplitTab (pys " a\tb") = [pys " a", pys "b"]
    ∧ split_tsv_to_txt [pys "en\tkab", pys " a\tb"] = .ok ([pys "a"], [pys "b"])
    ∧ pys "a" ≠ pys " a" := by
  refine ⟨by rfl, by rfl, by rfl, by rfl, by decide⟩

/-- C4 (amended): for a cleaned corpus whose `K` data rows, after stripping
the whole line of leading/trailing whitespace, each split on tab into exactly
two fields, the Splitter produces two outputs of exactly `K` lines, where the
lines `i` of the two outputs are the two fields of the *stripped* data row
`i`, in row order; and if some stripped data row does not split into exactly
two fields, the Splitter raises. -/
theorem C4_splitter_amended :
    (∀ (hdr : PyStr) (data ens kabs : List PyStr),
      split_tsv_to_txt (hdr :: data) = .ok (ens, kabs) →
      ens.length = data.length ∧ kabs.length = data.length ∧
      ∀ i, i < data.length →
        pySplitTab (pyStrip (data.getD i [])) = [ens.getD i [], kabs.getD i []])
    ∧ (∀ (hdr : PyStr) (data : List PyStr),
      (∃ line ∈ data, (pySplitTab (pyStrip line)).length ≠ 2) →
      ∃ e, split_tsv_to_txt (hdr :: data) = .error e) := by
  constructor
  · intro hdr data ens kabs h
    exact splitLines_ok data ens kabs h
  · intro hdr data hbad
    obtain ⟨line, hmem, hlen⟩ := hbad
    cases hres : split_tsv_to_txt (hdr :: data) with
    | error e => exact ⟨e, rfl⟩
    | ok p =>
      obtain ⟨ens, kabs⟩ := p
      obtain ⟨_, _, hpt⟩ := splitLines_ok data ens kabs hres
      obtain ⟨i, hi, hget⟩ := List.getElem_of_mem hmem
      exfalso
      apply hlen
      have := hpt i hi
      rw [List.getD_eq_getElem data [] hi, hget] at this
      rw [this]
      rfl

/-- Witness for `C4_splitter_amended` on a two-row cleaned corpus. -/
theorem C4_witness :
    ([pys "Hello", pys "a"] : List PyStr).length = ([pys "Hello\tAzul", pys "a\tb"] : List PyStr).length
    ∧ ([pys "Azul", pys "b"] : List PyStr).length = ([pys "Hello\tAzul", pys "a\tb"] : List PyStr).length
    ∧ ∀ i, i < ([pys "Hello\tAzul", pys "a\tb"] : List PyStr).length →
        pySplitTab (pyStrip (([pys "Hello\tAzul", pys "a\tb"] : List PyStr).getD i [])) =
          [([pys "Hello", pys "a"] : List PyStr).getD i [],
           ([pys "Azul", pys "b"] : List PyStr).getD i []] :=
  C4_splitter_amended.1 (pys "en\tkab") [pys "Hello\tAzul", pys "a\tb"]
    [pys "Hello", pys "a"] [pys "Azul", pys "b"] (by rfl)

-- ======================= Cleaner lemmas ======================================

theorem length_filter_add_length_not {α : Type} (p : α → Bool) (l : List α) :
    (l.filter p).length + (l.filter (fun a => !p a)).length = l.length := by
  induction l with
  | nil => rfl
  | cons a l ih =>
    by_cases h : p a
    · simp [List.filter_cons, h, ← ih]
      omega
    · simp only [List.filter_cons]
      rw [if_neg (by simpa using h), if_pos (by simpa using h)]
      simp only [List.length_cons]
      omega

theorem cleanLoop_eq (data : List Row) :
    cleanLoop data = ((data.filter keepRow).length,
      (data.filter (fun row => !keepRow row)).length, data.filter keepRow) := by
  induction data with
  | nil => rfl
  | cons row rest ih =>
    simp only [cleanLoop, ih, List.filter_cons]
    by_cases h : keepRow row
    · rw [if_pos h, if_pos h, if_neg (by simpa using h)]
      simp
    · rw [if_neg h, if_neg h, if_pos (by simpa using h)]
      simp

theorem keepRow_iff (row : Row) :
    keepRow row = true ↔
      ∃ a b, row = [a, b] ∧ pyStrip a ≠ [] ∧ pyStrip b ≠ [] := by
  match row with
  | [] => simp [keepRow]
  | [a] => simp [keepRow]
  | [a, b] =>
    simp only [keepRow, List.getD]
    constructor
    · intro h
      simp only [Bool.and_eq_true, beq_iff_eq, Bool.not_eq_true',
        List.isEmpty_eq_false] at h
      exact ⟨a, b, rfl, by simpa using h.1.2, by simpa using h.2⟩
    · rintro ⟨a2, b2, heq, ha, hb⟩
      simp only [List.cons.injEq] at heq
      obtain ⟨h1, h2, -⟩ := heq
      subst h1; subst h2
      simp only [Bool.and_eq_true, beq_iff_eq, Bool.not_eq_true',
        List.isEmpty_eq_false]
      exact ⟨⟨rfl, by simpa using ha⟩, by simpa using hb⟩
  | a :: b :: d :: rest =>
    constructor
    · intro h
      exfalso
      simp [keepRow] at h
    · rintro ⟨a2, b2, heq, -, -⟩
      simp at heq

-- ======================= Claim C2 ============================================

/-- C2: when `clean_corpus` accepts the input (valid header), the returned
counts satisfy `kept + removed = number of data rows`; the rows written after
the header are exactly the kept rows, in order; `kept` and `removed` count the
kept and discarded rows respectively; and a row is kept iff it has exactly two
fields that are both non-empty after trimming whitespace. -/
theorem C2_cleaner_counts (header : Row) (data out : List Row) (k r : Nat)
    (h : clean_corpus (header :: data) = (some out, .ok (k, r))) :
    k + r = data.length
    ∧ out = header :: data.filter keepRow
    ∧ k = (data.filter keepRow).length
    ∧ r = (data.filter (fun row => !keepRow row)).length
    ∧ ∀ row : Row, keepRow row = true ↔
        ∃ a b, row = [a, b] ∧ pyStrip a ≠ [] ∧ pyStrip b ≠ [] := by
  by_cases hh : header = validHeader
  · rw [clean_corpus, if_pos hh, cleanLoop_eq] at h
    simp only [Prod.mk.injEq, Option.some.injEq, Except.ok.injEq] at h
    obtain ⟨hout, hk, hr⟩ := h
    refine ⟨?_, hout.symm, hk.symm, hr.symm, keepRow_iff⟩
    rw [← hk, ← hr]
    exact length_filter_add_length_not keepRow data
  · rw [clean_corpus, if_neg hh] at h
    simp at h

/-- Witness for `C2_cleaner_counts` on a three-data-row input (one good row,
one row with an all-whitespace field, one one-field row). -/
theorem C2_witness :
    (1 : Nat) + 2 = ([[pys "Hello", pys "Azul"], [pys "Hi", pys " "], [pys "x"]] : List Row).length
    ∧ [validHeader, [pys "Hello", pys "Azul"]] =
        validHeader :: ([[pys "Hello", pys "Azul"], [pys "Hi", pys " "], [pys "x"]] : List Row).filter keepRow
    ∧ (1 : Nat) = (([[pys "Hello", pys "Azul"], [pys "Hi", pys " "], [pys "x"]] : List Row).filter keepRow).length
    ∧ (2 : Nat) = (([[pys "Hello", pys "Azul"], [pys "Hi", pys " "], [pys "x"]] : List Row).filter (fun row => !keepRow row)).length
    ∧ ∀ row : Row, keepRow row = true ↔
        ∃ a b, row = [a, b] ∧ pyStrip a ≠ [] ∧ pyStrip b ≠ [] :=
  C2_cleaner_counts validHeader
    [[pys "Hello", pys "Azul"], [pys "Hi", pys " "], [pys "x"]]
    [validHeader, [pys "Hello", pys "Azul"]] 1 2 (by rfl)

-- ======================= Claim C3 ============================================

/-- C3: `clean_corpus` fails with `EmptyInput` when the input has no rows at
all; it fails with `InvalidFormat` whenever the first row is anything other
than `['en', 'kab']` (in particular on the first line `"foo\tbar"`); and when
the header is valid it is copied unchanged as the first row of the output. -/
theorem C3_cleaner_header (header : Row) (data : List Row)
    (hbad : header ≠ validHeader) :
    clean_corpus [] = (some [], .error .emptyInput)
    ∧ clean_corpus (header :: data) = (some [], .error .invalidFormat)
    ∧ clean_corpus [csvReadRow (pys "foo\tbar")] = (some [], .error .invalidFormat)
    ∧ ∀ data2 : List Row, ∃ written kr,
        clean_corpus (validHeader :: data2) = (some (validHeader :: written), .ok kr) := by
  refine ⟨rfl, ?_, by rfl, ?_⟩
  · rw [clean_corpus, if_neg hbad]
  · intro data2
    exact ⟨(cleanLoop data2).2.2, ((cleanLoop data2).1, (cleanLoop data2).2.1),
      by rw [clean_corpus, if_pos rfl]⟩

/-- Witness for `C3_cleaner_header` at the header row `["foo", "bar"]`. -/
theorem C3_witness :
    clean_corpus [] = (some [], .error .emptyInput)
    ∧ clean_corpus ([pys "foo", pys "bar"] :: ([] : List Row)) =
        (some [], .error .invalidFormat)
    ∧ clean_corpus [csvReadRow (pys "foo\tbar")] = (some [], .error .invalidFormat)
    ∧ ∀ data2 : List Row, ∃ written kr,
        clean_corpus (validHeader :: data2) = (some (validHeader :: written), .ok kr) :=
  C3_cleaner_header [pys "foo", pys "bar"] [] (by decide)

-- ======================= Claim C8 ============================================

/-- C8: when `clean_corpus` raises `InvalidFormat` or `EmptyInput`, the output
file has nevertheless been created and truncated (it is opened with mode `'w'`
before the header is validated): after the failure the output path exists and
is empty, whatever cleaned corpus previously existed at that path. -/
theorem C8_output_truncated_on_error (prev prev2 : Option (List Row))
    (rows : List Row) (e : CleanError)
    (h : (clean_corpus rows).2 = .error e) :
    clean_corpus_output prev rows = some []
    ∧ clean_corpus_output prev rows = clean_corpus_output prev2 rows := by
  refine ⟨?_, rfl⟩
  unfold clean_corpus_output
  cases rows with
  | nil => rfl
  | cons header rest =>
    by_cases hh : header = validHeader
    · rw [clean_corpus, if_pos hh] at h ⊢
      simp at h
    · rw [clean_corpus, if_neg hh]

/-- Witness for `C8_output_truncated_on_error`: a run failing with
`InvalidFormat` over a path that previously held a non-empty cleaned corpus. -/
theorem C8_witness :
    clean_corpus_output (some [validHeader, [pys "Hello", pys "Azul"]])
        [[pys "foo", pys "bar"]] = some []
    ∧ clean_corpus_output (some [validHeader, [pys "Hello", pys "Azul"]])
        [[pys "foo", pys "bar"]] =
      clean_corpus_output none [[pys "foo", pys "bar"]] :=
  C8_output_truncated_on_error (some [validHeader, [pys "Hello", pys "Azul"]])
    none [[pys "foo", pys "bar"]] .invalidFormat (by rfl)

-- ======================= Claim C9 ============================================

/-- C9: the Cleaner does not copy kept rows verbatim: the input line
`"\"a\"\tb"` parses (via the csv reader) to the row `["a", "b"]`, which is
kept, but the csv writer re-encodes that row as `"a\tb"`, which differs from
the input line's textual form. -/
theorem C9_csv_not_verbatim :
    csvReadRow (pys "\"a\"\tb") = [pys "a", pys "b"]
    ∧ keepRow (csvReadRow (pys "\"a\"\tb")) = true
    ∧ csvWriteRow (csvReadRow (pys "\"a\"\tb")) = pys "a\tb"
    ∧ csvWriteRow (csvReadRow (pys "\"a\"\tb")) ≠ pys "\"a\"\tb" := by
  refine ⟨by rfl, by rfl, by rfl, by decide⟩

-- ======================= Extractor lemmas ====================================

/-- The segment string one `<tuv>` contributes to language `k`: present iff
the `<tuv>` is tagged `k`, has a `<seg>` child, and its flattened text is
non-empty after stripping; the contribution is the stripped text. -/
def segFor (k : PyStr) (tuv : Tuv) : Option PyStr :=
  match tuv.lang, tuv.seg with
  | some l, some raw =>
    if l = k ∧ pyStrip raw ≠ [] then some (pyStrip raw) else none
  | _, _ => none

/-- The list of segment strings a `<tu>` collects for language `k`, in
document order. -/
def collectedSegs (k : PyStr) (tu : Tu) : List PyStr :=
  tu.tuvs.filterMap (segFor k)

theorem addTuv_apply (src tgt k : PyStr) (hk : k = src ∨ k = tgt)
    (texts : PyStr → List PyStr) (tuv : Tuv) :
    addTuv src tgt texts tuv k = texts k ++ (segFor k tuv).toList := by
  unfold addTuv segFor
  cases hl : tuv.lang with
  | none => simp
  | some l =>
    cases hs : tuv.seg with
    | none =>
      dsimp only
      by_cases hmem : l = src ∨ l = tgt
      · rw [if_pos hmem]; simp
      · rw [if_neg hmem]; simp
    | some raw =>
      dsimp only
      by_cases hmem : l = src ∨ l = tgt
      · rw [if_pos hmem]
        by_cases hne : pyStrip raw ≠ []
        · rw [if_pos hne]
          by_cases hkl : k = l
          · subst hkl
            rw [if_pos rfl, if_pos ⟨rfl, hne⟩]
            simp
          · rw [if_neg hkl, if_neg (fun hc => hkl hc.1.symm)]
            simp
        · rw [if_neg hne]
          rw [if_neg (fun hc => hne hc.2)]
          simp
      · rw [if_neg hmem]
        have hlk : ¬(l = k ∧ pyStrip raw ≠ []) := by
          rintro ⟨hc, -⟩
          subst hc
          exact hmem hk
        rw [if_neg hlk]
        simp

theorem foldl_addTuv_apply (src tgt k : PyStr) (hk : k = src ∨ k = tgt)
    (tuvs : List Tuv) (texts : PyStr → List PyStr) :
    tuvs.foldl (addTuv src tgt) texts k = texts k ++ tuvs.filterMap (segFor k) := by
  induction tuvs generalizing texts with
  | nil => simp
  | cons tuv rest ih =>
    rw [List.foldl_cons, ih (addTuv src tgt texts tuv),
      addTuv_apply src tgt k hk texts tuv, List.filterMap_cons]
    cases segFor k tuv with
    | none => simp
    | some t => simp

theorem tuTexts_eq (src tgt k : PyStr) (hk : k = src ∨ k = tgt) (tu : Tu) :
    tuTexts src tgt tu k = collectedSegs k tu := by
  unfold tuTexts collectedSegs
  rw [foldl_addTuv_apply src tgt k hk tu.tuvs (fun _ => [])]
  simp

-- ======================= Claim C1 ============================================

/-- C1: per `<tu>`, the Extractor emits exactly one data row iff both the
source and the target language collected at least one non-empty segment
(each segment's flattened text stripped, empty results skipped); the emitted
row is the single-space join of the source segments, a tab, and the
single-space join of the target segments; a `<tu>` missing either language
contributes no row; and the data rows of the extracted file are exactly the
per-`<tu>` emissions, in order. -/
theorem C1_extractor_rows (src tgt : PyStr) (tus : List Tu) (tu : Tu) :
    (∀ row : PyStr, tuRow src tgt tu = some row ↔
      (collectedSegs src tu ≠ [] ∧ collectedSegs tgt tu ≠ [] ∧
        row = pyJoin ' ' (collectedSegs src tu) ++ '\t' :: pyJoin ' ' (collectedSegs tgt tu)))
    ∧ (tuRow src tgt tu = none ↔
        (collectedSegs src tu = [] ∨ collectedSegs tgt tu = []))
    ∧ (extract_parallel_corpus src tgt tus).drop 1 = tus.filterMap (tuRow src tgt) := by
  have hsrc : tuTexts src tgt tu src = collectedSegs src tu :=
    tuTexts_eq src tgt src (Or.inl rfl) tu
  have htgt : tuTexts src tgt tu tgt = collectedSegs tgt tu :=
    tuTexts_eq src tgt tgt (Or.inr rfl) tu
  refine ⟨?_, ?_, rfl⟩
  · intro row
    unfold tuRow
    dsimp only
    rw [hsrc, htgt]
    by_cases hc : collectedSegs src tu ≠ [] ∧ collectedSegs tgt tu ≠ []
    · rw [if_pos hc]
      simp only [Option.some.injEq]
      constructor
      · intro h
        exact ⟨hc.1, hc.2, h.symm⟩
      · intro h
        exact h.2.2.symm
    · rw [if_neg hc]
      simp only [false_iff, reduceCtorEq]
      intro h
      exact hc ⟨h.1, h.2.1⟩
  · unfold tuRow
    dsimp only
    rw [hsrc, htgt]
    by_cases hc : collectedSegs src tu ≠ [] ∧ collectedSegs tgt tu ≠ []
    · rw [if_pos hc]
      simp only [reduceCtorEq, false_iff]
      rintro (h | h)
      · exact hc.1 h
      · exact hc.2 h
    · rw [if_neg hc]
      simp only [true_iff]
      by_cases h1 : collectedSegs src tu = []
      · exact Or.inl h1
      · right
        by_contra h2
        exact hc ⟨h1, h2⟩

-- ======================= Claim C7 ============================================

/-- C7: the Extractor writes the header row `f"{src_lang}\t{tgt_lang}"` before
any data rows; for a TMX with a single `<tu>` holding the English segment
`"Hello"` and the Kabyle segment `"Azul"`, the raw file is exactly the header
line `"en\tkab"` followed by the single row `"Hello\tAzul"`. -/
theorem C7_header_then_rows :
    (∀ (src tgt : PyStr) (tus : List Tu),
      (extract_parallel_corpus src tgt tus).head? = some (src ++ '\t' :: tgt))
    ∧ extract_parallel_corpus (pys "en") (pys "kab")
        [⟨[⟨some (pys "en"), some (pys "Hello")⟩,
           ⟨some (pys "kab"), some (pys "Azul")⟩]⟩] =
      [pys "en\tkab", pys "Hello\tAzul"] :=
  ⟨fun _ _ _ => rfl, by rfl⟩

-- ======================= Claim C5 ============================================

/-- C5 counterexample: against an unchanged remote whose server omits the
`Content-Length` header, the first run (from no local copy) transfers and the
second run transfers again (declared length `-1` never equals the local size),
for a total of two transfers, not one; moreover, if a matching local copy
already exists before the first run, the total is zero transfers. -/
theorem C5_counterexample :
    download_tmx ⟨none, 200, pys "x"⟩ none = .ok (some (pys "x"), 1)
    ∧ download_tmx ⟨none, 200, pys "x"⟩ (some (pys "x")) = .ok (some (pys "x"), 1)
    ∧ (1 + 1 : Nat) ≠ 1
    ∧ download_tmx ⟨some 1, 200, pys "x"⟩ (some (pys "x")) = .ok (some (pys "x"), 0)
    ∧ (0 + 0 : Nat) ≠ 1 := by
  refine ⟨by rfl, by rfl, by decide, by rfl, by decide⟩

/-- C5 (amended): if the destination exists, the Fetcher skips the transfer
exactly when its byte length equals the declared content length; a server
omitting the length header makes the declared length `-1`, which never equals
the local size, forcing a redownload.  Consequently, starting from no local
copy, two runs against an unchanged remote resource whose server declares a
content length equal to its body length perform exactly one full transfer in
total (the first transfers, the second skips). -/
theorem C5_fetcher_skip (r : Remote) (content : PyStr) :
    (download_tmx r (some content) = .ok (some content, 0) ↔
      remoteSize r = (content.length : Int))
    ∧ (r.contentLength = none → r.status = 200 →
        download_tmx r (some content) = .ok (some r.body, 1))
    ∧ (r.status = 200 → r.contentLength = some (r.body.length : Int) →
        download_tmx r none = .ok (some r.body, 1)
        ∧ download_tmx r (some r.body) = .ok (some r.body, 0)) := by
  refine ⟨?_, ?_, ?_⟩
  · constructor
    · intro h
      by_contra hne
      rw [download_tmx] at h
      rw [if_neg hne] at h
      by_cases hst : r.status = 200
      · rw [if_pos hst] at h
        simp at h
      · rw [if_neg hst] at h
        simp at h
    · intro heq
      rw [download_tmx, if_pos heq]
  · intro hnone hst
    have hne : remoteSize r ≠ (content.length : Int) := by
      rw [remoteSize, hnone]
      simp only [Option.getD_none]
      omega
    rw [download_tmx, if_neg hne]
    rw [if_pos hst]
  · intro hst hlen
    constructor
    · rw [download_tmx]
      rw [if_pos hst]
    · rw [download_tmx, if_pos (by rw [remoteSize, hlen]; rfl)]

/-- Witness for `C5_fetcher_skip`: a remote with declared length 1 and
one-byte body; the skip iff, the omitted-header redownload and the
two-run/one-transfer property, all at concrete inputs. -/
theorem C5_witness :
    (download_tmx ⟨some 1, 200, pys "x"⟩ (some (pys "y")) = .ok (some (pys "y"), 0) ↔
      remoteSize ⟨some 1, 200, pys "x"⟩ = ((pys "y").length : Int))
    ∧ (download_tmx ⟨some 1, 200, pys "x"⟩ none = .ok (some (pys "x"), 1)
        ∧ download_tmx ⟨some 1, 200, pys "x"⟩ (some (pys "x")) = .ok (some (pys "x"), 0)) :=
  ⟨(C5_fetcher_skip ⟨some 1, 200, pys "x"⟩ (pys "y")).1,
    (C5_fetcher_skip ⟨some 1, 200, pys "x"⟩ (pys "y")).2.2 rfl (by rfl)⟩

-- ======================= Claim C6 ============================================

/-- C6: whenever the Fetcher performs a transfer (no local copy, or a local
copy whose size differs from the declared remote size), it fails exactly when
the response status is not the success status 200, the raised error carries
that status, and on status 200 it writes the full response body to the
destination. -/
theorem C6_transfer_status (r : Remote) (localFile : Option PyStr)
    (htransfer : localFile = none ∨
      ∃ c, localFile = some c ∧ remoteSize r ≠ (c.length : Int)) :
    ((∃ e, download_tmx r localFile = .error e) ↔ r.status ≠ 200)
    ∧ (∀ e, download_tmx r localFile = .error e → e = r.status)
    ∧ (r.status = 200 → download_tmx r localFile = .ok (some r.body, 1)) := by
  have hdl : download_tmx r localFile =
      if r.status = 200 then .ok (some r.body, 1) else .error r.status := by
    rcases htransfer with h | ⟨c, hc, hne⟩
    · rw [h, download_tmx]
    · rw [hc, download_tmx, if_neg hne]
  rw [hdl]
  by_cases hst : r.status = 200
  · rw [if_pos hst]
    refine ⟨?_, ?_, fun _ => rfl⟩
    · simp [hst]
    · intro e h
      simp at h
  · rw [if_neg hst]
    refine ⟨?_, ?_, fun h => absurd h hst⟩
    · simp [hst]
    · intro e h
      simpa using h.symm

/-- Witness for `C6_transfer_status`: a failing GET (status 404) from no local
copy. -/
theorem C6_witness :
    ((∃ e, download_tmx ⟨some 3, 404, pys "x"⟩ none = .error e) ↔ (404 : Nat) ≠ 200)
    ∧ (∀ e, download_tmx ⟨some 3, 404, pys "x"⟩ none = .error e → e = 404)
    ∧ ((404 : Nat) = 200 → download_tmx ⟨some 3, 404, pys "x"⟩ none = .ok (some (pys "x"), 1)) :=
  C6_transfer_status ⟨some 3, 404, pys "x"⟩ none (Or.inl rfl)
